import Mathlib

/-!
Verification development for the image-to-georeferenced-detections pipeline of
`pokok_kuning_gui/core/processor.py` (class `ImageProcessor`).

Shallow embedding conventions:
  - Python floats are modelled as rationals (`ℚ`); the claims under study are
    exact structural/arithmetic properties, not rounding properties.
  - The file system visible to an operation is passed explicitly: a directory
    is the list of names of the files it contains, a file's content is a
    value, a missing file is `none`.
  - A fallible Python operation becomes a function into `Option`/`Except`;
    an operation the source wraps in `try/except` never "throws" in the
    model, it returns the sentinel the handler returns.
  - `Image.open` is modelled by its outcome: `none` when the path is
    unreadable / zero-byte / not an image (PIL raises, the source catches),
    otherwise `some` of the decoded image's mode and size.
  - The external detection capability (`ultralytics` model `predict`) is an
    opaque input: `none` models the call raising, `some results` models a
    successful return of a result list.
-/

/-- PIL image mode, as the source's string `img.mode` distinguishes it:
the canonical 3-channel mode `RGB`, the modes the source names explicitly
(`RGBA`, `LA`, `L`, `P`, `CMYK`), and a bucket for every other mode
(the source's final `elif img.mode != 'RGB'` catch-all). -/
inductive ImgMode where
  | RGB
  | RGBA
  | LA
  | L
  | P
  | CMYK
  | other
deriving DecidableEq

/-- A decoded raster: mode plus pixel size (`img.mode`, `img.size`). -/
structure ImageInfo where
  mode : ImgMode
  width : ℕ
  height : ℕ
deriving DecidableEq

/-- One detection box of a YOLO result (`result.boxes` element).
`xyxy = none` models a malformed detection whose coordinate access raises
(the source skips it via the inner `try/except` in `create_geojson`). -/
structure Detection where
  xyxy : Option (ℚ × ℚ × ℚ × ℚ)
  cls : ℤ
  conf : ℚ
deriving DecidableEq

/-- One element of the list returned by `model.predict`:
`boxes = None` or a list of detections. -/
structure YoloResult where
  boxes : Option (List Detection)
deriving DecidableEq

/-! ## World-File Georeferencer (`read_jgw`, `image_to_map_coords`) -/

/-- `read_jgw` body: `[float(param.strip()) for param in params]`.
Each line is given as its parse outcome (`none` = `float()` raises
`ValueError`); any unparsable line aborts the comprehension and the
source's `except Exception` handler returns `None`. -/
def parseLines : List (Option ℚ) → Option (List ℚ)
  | [] => some []
  | none :: _ => none
  | some q :: rest =>
    match parseLines rest with
    | none => none
    | some l => some (q :: l)

/-- `ImageProcessor.read_jgw`: read all lines of the world file and parse
each as a float. A missing file (`FileNotFoundError`) or any parse failure
returns `None`. The input is the file: `none` = file absent, otherwise the
list of its lines (each line already classified by parse outcome). -/
def read_jgw : Option (List (Option ℚ)) → Option (List ℚ)
  | none => none
  | some lines => parseLines lines

/-- `ImageProcessor.image_to_map_coords`:
`map_x = upper_left_x + x * pixel_size_x`, `map_y = upper_left_y + y * pixel_size_y`. -/
def image_to_map_coords (x y pixel_size_x pixel_size_y upper_left_x upper_left_y : ℚ) :
    ℚ × ℚ :=
  (upper_left_x + x * pixel_size_x, upper_left_y + y * pixel_size_y)

/-- The coordinate mapping applied to a full 6-parameter world-file transform,
exactly as the call site in `create_geojson` does:
`pixel_size_x, rotation_x, rotation_y, pixel_size_y, upper_left_x, upper_left_y = jgw_params`
followed by `image_to_map_coords(px, py, pixel_size_x, pixel_size_y, upper_left_x, upper_left_y)`. -/
def to_map_coords (px py : ℚ) : ℚ × ℚ × ℚ × ℚ × ℚ × ℚ → ℚ × ℚ
  | (pixel_size_x, _rotation_x, _rotation_y, pixel_size_y, upper_left_x, upper_left_y) =>
    image_to_map_coords px py pixel_size_x pixel_size_y upper_left_x upper_left_y

/-! ## Image Normalizer (`validate_and_preprocess_image`) -/

/-- The derived temp-file name: `base_name + "_temp_rgb.jpg"` where
`base_name = os.path.splitext(image_path)[0]` (the stem is passed in
already split, path-string manipulation being orthogonal to the claims). -/
def tempName (stem : String) : String := stem ++ "_temp_rgb.jpg"

/-- Return value of `validate_and_preprocess_image`: the 5-tuple
`(is_valid, width, height, mode, temp_path)` the source returns, plus the
content written to `temp_path` (the source's `img.save(...)` side effect)
made explicit. -/
structure ValidateOut where
  ok : Bool
  width : ℕ
  height : ℕ
  mode : Option ImgMode
  temp_path : Option String
  written : Option ImageInfo
deriving DecidableEq

/-- `ImageProcessor.validate_and_preprocess_image`: open the image
(failure ⇒ `(False, 0, 0, None, None)`); convert any non-RGB mode to RGB
(`RGBA`/`LA`, `L`/`P`, `CMYK`, and any other mode all take a `convert('RGB')`
branch); write the converted image to `<stem>_temp_rgb.jpg` exactly when the
original mode was not RGB; return the (post-conversion) mode. -/
def validate_and_preprocess_image (img : Option ImageInfo) (stem : String) : ValidateOut :=
  match img with
  | none => ⟨false, 0, 0, none, none, none⟩
  | some i =>
    if i.mode = ImgMode.RGB then
      ⟨true, i.width, i.height, some ImgMode.RGB, none, none⟩
    else
      ⟨true, i.width, i.height, some ImgMode.RGB, some (tempName stem),
        some ⟨ImgMode.RGB, i.width, i.height⟩⟩

/-! ## Detector Adapter (`detect_objects`) -/

/-- The bucket-counting loop of `detect_objects`, over one result's boxes:
`class_id == 0` increments `abnormal_count`, `class_id == 1` increments
`normal_count`, anything else increments neither. -/
def countBoxList (acc : ℕ × ℕ) (boxes : List Detection) : ℕ × ℕ :=
  boxes.foldl
    (fun a d => if d.cls = 0 then (a.1 + 1, a.2) else if d.cls = 1 then (a.1, a.2 + 1) else a)
    acc

/-- The outer counting loop: skip results whose `boxes` is `None`. -/
def countBoxes (results : List YoloResult) : ℕ × ℕ :=
  results.foldl
    (fun acc r =>
      match r.boxes with
      | none => acc
      | some boxes => countBoxList acc boxes)
    (0, 0)

/-- All detections of a result list in order, `boxes = None` contributing none;
used to state what `countBoxes` counts. -/
def allDetections (results : List YoloResult) : List Detection :=
  results.foldr (fun r acc => r.boxes.getD [] ++ acc) []

/-- The summary dictionary `detect_objects` returns alongside the raw
results: the two bucket counts, and whether the `"error"` key is present. -/
structure Counts where
  abnormal_count : ℕ
  normal_count : ℕ
  error : Bool
deriving DecidableEq

/-- Result of `detect_objects` with its file-system effect made explicit. -/
structure DetectOut where
  results : Option (List YoloResult)
  counts : Counts
  fs : List String
deriving DecidableEq

/-- `img.save(temp_path, ...)`: the directory now contains the name. -/
def writeName (fs : List String) (p : String) : List String :=
  if fs.contains p then fs else p :: fs

/-- The cleanup in `detect_objects`' `finally`:
`if temp_image_path and os.path.exists(temp_image_path): os.remove(...)`;
removing is a no-op when the name is already absent. -/
def removeIfExists (fs : List String) (p : String) : List String :=
  if fs.contains p then fs.filter (fun q => q ≠ p) else fs

/-- `ImageProcessor.detect_objects`: validate/normalize the image (invalid ⇒
`(None, {abnormal_count: 0, normal_count: 0, error: ...})` with no temp file
ever created); otherwise run `predict` on the normalized path — an exception
(`predict = none`) yields the same error sentinel — count buckets on success,
and in every case the `finally` block deletes the temp file if one was
created and still exists. `fs` is the directory content. -/
def detect_objects (fs : List String) (img : Option ImageInfo)
    (predict : Option (List YoloResult)) (stem : String) : DetectOut :=
  let v := validate_and_preprocess_image img stem
  if v.ok = false then
    { results := none, counts := ⟨0, 0, true⟩, fs := fs }
  else
    let fs1 :=
      match v.temp_path with
      | some t => writeName fs t
      | none => fs
    let cleanup := fun (g : List String) =>
      match v.temp_path with
      | some t => removeIfExists g t
      | none => g
    match predict with
    | none => { results := none, counts := ⟨0, 0, true⟩, fs := cleanup fs1 }
    | some results =>
      let c := countBoxes results
      { results := some results, counts := ⟨c.1, c.2, false⟩, fs := cleanup fs1 }

/-- Whether this invocation creates a temporary normalized copy:
the image opened and its original mode was not RGB. -/
def tempCreated (img : Option ImageInfo) : Bool :=
  match img with
  | none => false
  | some i => i.mode ≠ ImgMode.RGB

/-! ## Vector Feature Builder (`create_geojson`) -/

/-- One GeoJSON point feature as `create_geojson` builds it. -/
structure Feature where
  geometry : ℚ × ℚ
  label : String
  confidence : ℚ
  class_id : ℤ
deriving DecidableEq

/-- `labels.get(class_id, f"class_{class_id}")`. -/
def labelOf (labels : List (ℤ × String)) (c : ℤ) : String :=
  match labels.lookup c with
  | some s => s
  | none => "class_" ++ Int.repr c

/-- Per-detection feature construction (the body of the inner loop of
`create_geojson`); a malformed detection (`xyxy = none`, i.e. the coordinate
access raises) is skipped by the inner `except: continue`. -/
def featureOfDetection (pixel_size_x pixel_size_y upper_left_x upper_left_y : ℚ)
    (labels : List (ℤ × String)) (d : Detection) : Option Feature :=
  match d.xyxy with
  | none => none
  | some (x1, y1, x2, y2) =>
    let center_x := (x1 + x2) / 2
    let center_y := (y1 + y2) / 2
    let m := image_to_map_coords center_x center_y pixel_size_x pixel_size_y
      upper_left_x upper_left_y
    some ⟨m, labelOf labels d.cls, d.conf, d.cls⟩

/-- `ImageProcessor.create_geojson`: `None` detections or `None` transform ⇒
empty feature collection; otherwise unpack the 6 transform parameters — a
parameter list of any other length makes the tuple unpacking raise
`ValueError`, modelled as `.error` (caught only by the per-file handler in
`process_folder`) — and build one point feature per well-formed detection. -/
def create_geojson (detected_objects : Option (List YoloResult))
    (jgw_params : Option (List ℚ)) (labels : List (ℤ × String)) :
    Except Unit (List Feature) :=
  match detected_objects, jgw_params with
  | none, _ => .ok []
  | _, none => .ok []
  | some results, some params =>
    match params with
    | [pixel_size_x, _rotation_x, _rotation_y, pixel_size_y, upper_left_x, upper_left_y] =>
      .ok (results.foldl
        (fun acc r =>
          match r.boxes with
          | none => acc
          | some boxes =>
            acc ++ boxes.filterMap
              (featureOfDetection pixel_size_x pixel_size_y upper_left_x upper_left_y labels))
        [])
    | _ => .error ()

/-! ## Output Writer (`save_geojson`): collision-free naming

The collision loop renders the counter with Python's decimal formatting,
modelled by `Nat.repr`. To reason about the candidate names we first prove
`Nat.repr` injective, via the decimal value of a digit string. -/

def digitVal (c : Char) : ℕ := c.toNat - 48

def digitsVal (l : List Char) : ℕ := l.foldl (fun a c => 10 * a + digitVal c) 0

/-- Decimal value of a string; a left inverse of `Nat.repr`. -/
def strVal (s : String) : ℕ := digitsVal s.data

/-- The candidate output name tried at loop iteration `n` by `save_geojson`:
`<base>.geojson` first, then `<base>_1.geojson`, `<base>_2.geojson`, … -/
def geojson_name (base : String) : ℕ → String
  | 0 => base ++ ".geojson"
  | Nat.succ k => base ++ "_" ++ Nat.repr (k + 1) ++ ".geojson"

/-- The `while os.path.exists(output_path)` loop of `save_geojson`, starting
at candidate index `n`; the fuel argument only bounds the search and is
instantiated with `existing.length + 1`, which `find_free_name_total` proves
sufficient. -/
def find_free_name (existing : List String) (base : String) : ℕ → ℕ → Option String
  | 0, _ => none
  | fuel + 1, n =>
    if existing.contains (geojson_name base n) then find_free_name existing base fuel (n + 1)
    else some (geojson_name base n)

/-- `ImageProcessor.save_geojson`: derive the collision-free output name,
then attempt the write (`writeOk` = the `open`/`dump` succeeding; the
source's `except` returns `None` on a failed write). -/
def save_geojson (existing : List String) (base : String) (writeOk : Bool) : Option String :=
  match find_free_name existing base (existing.length + 1) 0 with
  | none => none
  | some path => if writeOk then some path else none

/-! ## Batch Orchestrator (`process_folder`)

The environment of one file of the batch: everything the outside world
decides about this file's processing. `bodyExn` models an exception raised
inside the per-file `try` block outside the modelled component calls (e.g.
`int(config[...])` failing); it is caught by the per-file `except`. -/

structure FileEnv where
  name : String
  stem : String
  img : Option ImageInfo
  predict : Option (List YoloResult)
  jgw : Option (List (Option ℚ))
  existing : List String
  writeOk : Bool
  bodyExn : Bool
deriving DecidableEq

/-- The progress dictionary passed to `progress_callback` (the wall-clock
timing strings and `image_info` are not modelled; `status` is
`"Processed successfully"` on success and the `"Error: …"` text otherwise). -/
structure ProgressRec where
  processed : ℕ
  total : ℕ
  successful : ℕ
  failed : ℕ
  current_file : String
  status : String
  abnormal_count : ℕ
  normal_count : ℕ
deriving DecidableEq

/-- The running counters of the batch loop, plus the progress records
emitted so far (the callback's consumption collected in order). -/
structure BatchState where
  successful : ℕ
  failed : ℕ
  total_abnormal : ℕ
  total_normal : ℕ
  records : List ProgressRec
deriving DecidableEq

/-- The dictionary `process_folder` returns (`total_time` not modelled). -/
structure BatchResult where
  error : Option String
  successful_processed : ℕ
  failed_processed : ℕ
  total_files : ℕ
  total_abnormal : ℕ
  total_normal : ℕ
deriving DecidableEq

/-- The terminal state a file reaches in the per-file loop body:
success, failure via a caught exception (the `except` branch, which emits a
progress record), or failure via a sentinel return (`detected_objects is
None`, `jgw_params is None`, `geojson_output_path is None` — the `continue`
branches, which emit nothing). -/
inductive Terminal where
  | silentFail
  | exnCaught
  | success (abnormal normal : ℕ)
deriving DecidableEq

/-- Which terminal state the body of the per-file loop reaches for a file,
following the source's order: detection (invalid image or `predict`
exception ⇒ `None` ⇒ `continue`), world-file read (`None` ⇒ `continue`),
feature building (a transform of length ≠ 6 raises `ValueError`, caught by
the per-file `except`), GeoJSON save (`None` ⇒ `continue`), else success
with the detector's bucket counts. -/
def terminalOf (labels : List (ℤ × String)) (e : FileEnv) : Terminal :=
  if e.bodyExn then .exnCaught
  else
    let d := detect_objects e.existing e.img e.predict e.stem
    match d.results with
    | none => .silentFail
    | some _ =>
      match read_jgw e.jgw with
      | none => .silentFail
      | some params =>
        match create_geojson d.results (some params) labels with
        | .error _ => .exnCaught
        | .ok _ =>
          match save_geojson e.existing e.stem e.writeOk with
          | none => .silentFail
          | some _ => .success d.counts.abnormal_count d.counts.normal_count

/-- The bookkeeping the loop body performs for each terminal state:
`continue` paths only increment `failed`; the `except` branch increments
`failed` and emits an error progress record; success increments
`successful`, accumulates the bucket counts into the batch totals and emits
a success progress record. -/
def applyTerminal (total idx : ℕ) (fname : String) (st : BatchState) : Terminal → BatchState
  | .silentFail =>
    ⟨st.successful, st.failed + 1, st.total_abnormal, st.total_normal, st.records⟩
  | .exnCaught =>
    ⟨st.successful, st.failed + 1, st.total_abnormal, st.total_normal,
      st.records ++ [⟨idx + 1, total, st.successful, st.failed + 1, fname, "Error", 0, 0⟩]⟩
  | .success abnormal normal =>
    ⟨st.successful + 1, st.failed, st.total_abnormal + abnormal, st.total_normal + normal,
      st.records ++ [⟨idx + 1, total, st.successful + 1, st.failed, fname,
        "Processed successfully", abnormal, normal⟩]⟩

/-- One iteration of the per-file loop (`for index, image_file in enumerate(...)`). -/
def processFile (labels : List (ℤ × String)) (total : ℕ) (st : BatchState) (idx : ℕ)
    (e : FileEnv) : BatchState :=
  applyTerminal total idx e.name st (terminalOf labels e)

/-- The whole per-file loop, over the files paired with their indices. -/
def runFiles (labels : List (ℤ × String)) (total k : ℕ) (st : BatchState)
    (files : List FileEnv) : BatchState :=
  (List.enumFrom k files).foldl (fun s p => processFile labels total s p.1 p.2) st

/-- The early-return value of `process_folder` when the detection model
fails to load (either model path resolution or `YOLO(...)` raising). -/
def modelLoadFailure : BatchResult := ⟨some "Failed to load model", 0, 0, 0, 0, 0⟩

/-- `ImageProcessor.process_folder`: a model-load failure short-circuits the
batch with an `error` result and zero counts; otherwise every file of the
folder is processed in order and the final counters are returned together
with the emitted progress records. -/
def process_folder (modelOk : Bool) (labels : List (ℤ × String)) (files : List FileEnv) :
    BatchResult × List ProgressRec :=
  if modelOk = false then (modelLoadFailure, [])
  else
    let final := runFiles labels files.length 0 ⟨0, 0, 0, 0, []⟩ files
    (⟨none, final.successful, final.failed, files.length, final.total_abnormal,
      final.total_normal⟩, final.records)

/-- Whether the loop body emits a progress record for this file: it does on
success and on a caught exception, not on the `continue` paths. -/
def emitsRecord (labels : List (ℤ × String)) (e : FileEnv) : Bool :=
  match terminalOf labels e with
  | .silentFail => false
  | _ => true

/-- Whether this file completes the whole pipeline successfully. -/
def fileSucceeds (labels : List (ℤ × String)) (e : FileEnv) : Bool :=
  match terminalOf labels e with
  | .success _ _ => true
  | _ => false

/-- The detector adapter's abnormal bucket count for this file. -/
def fileAbnormal (e : FileEnv) : ℕ :=
  (detect_objects e.existing e.img e.predict e.stem).counts.abnormal_count

/-- The detector adapter's normal bucket count for this file. -/
def fileNormal (e : FileEnv) : ℕ :=
  (detect_objects e.existing e.img e.predict e.stem).counts.normal_count

/-- A file whose image cannot be decoded: `detect_objects` returns `None`. -/
def invalidImageEnv : FileEnv := ⟨"bad.png", "bad", none, none, none, [], true, false⟩

/-! ## First easy theorems: C1 sanity examples -/

example : to_map_coords 3 4 (2, 99, 98, 5, 10, 20) = (10 + 3 * 2, 20 + 4 * 5) := rfl
example : read_jgw (some [some 1, some 2]) = some [1, 2] := by decide
example : read_jgw (some [some 1, none]) = none := by decide
example : read_jgw none = none := by decide

/-- C1: for every pixel coordinate and every 6-parameter transform, the
coordinate mapping returns exactly
`(origin_x + px*pixel_size_x, origin_y + py*pixel_size_y)`; in particular
the two rotation/shear parameters do not occur in the result. -/
theorem to_map_coords_affine (px py sx rx ry sy ox oy : ℚ) :
    to_map_coords px py (sx, rx, ry, sy, ox, oy) = (ox + px * sx, oy + py * sy) ∧
    ∀ rx' ry' : ℚ,
      to_map_coords px py (sx, rx', ry', sy, ox, oy) =
        to_map_coords px py (sx, rx, ry, sy, ox, oy) := by
  exact ⟨rfl, fun _ _ => rfl⟩

/-- C9: the feature builder with `None` detections or a `None` transform
returns an empty feature collection, not an error. -/
theorem create_geojson_none_empty :
    (∀ jgw labels, create_geojson none jgw labels = .ok []) ∧
    (∀ d labels, create_geojson d none labels = .ok []) := by
  refine ⟨fun jgw labels => ?_, fun d labels => ?_⟩ <;>
    first
      | rfl
      | (cases jgw <;> rfl)
      | (cases d <;> rfl)

/-! ## C2: what `read_jgw` actually guarantees -/

lemma parseLines_length : ∀ (lines : List (Option ℚ)) (l : List ℚ),
    parseLines lines = some l → l.length = lines.length := by
  intro lines
  induction lines with
  | nil => intro l h; simp [parseLines] at h; simp [← h]
  | cons hd tl ih =>
    intro l h
    match hd with
    | none => simp [parseLines] at h
    | some q =>
      simp only [parseLines] at h
      match htl : parseLines tl with
      | none => rw [htl] at h; exact absurd h (by simp)
      | some l' =>
        rw [htl] at h
        simp only [Option.some.injEq] at h
        subst h
        simp [ih l' htl]

lemma parseLines_malformed : ∀ (lines : List (Option ℚ)),
    none ∈ lines → parseLines lines = none := by
  intro lines
  induction lines with
  | nil => intro h; simp at h
  | cons hd tl ih =>
    intro h
    match hd with
    | none => rfl
    | some q =>
      have : none ∈ tl := by
        rcases List.mem_cons.mp h with h' | h'
        · exact absurd h'.symm (by simp)
        · exact h'
      simp [parseLines, ih this]

/-- C2 (amended): the world-file reader returns `None` for a missing file or
any unparsable line, and otherwise one float per line of the file — it
performs no length validation, so the result has exactly as many values as
the file has lines (0 for an empty file, 5 for a 5-line file, …). -/
theorem read_jgw_one_float_per_line (file : Option (List (Option ℚ))) (l : List ℚ) :
    read_jgw none = none ∧
    (read_jgw file = some l → ∃ lines, file = some lines ∧ l.length = lines.length) ∧
    (∀ lines : List (Option ℚ), none ∈ lines → read_jgw (some lines) = none) := by
  refine ⟨rfl, ?_, fun lines h => parseLines_malformed lines h⟩
  intro h
  match file with
  | none => exact absurd h (by simp [read_jgw])
  | some lines => exact ⟨lines, rfl, parseLines_length lines l h⟩

/-- Witness for `read_jgw_one_float_per_line` at a concrete two-line file. -/
theorem read_jgw_one_float_per_line_witness :
    ∃ lines, (some [some (1 : ℚ), some 2] : Option (List (Option ℚ))) = some lines ∧
      [(1 : ℚ), 2].length = lines.length :=
  (read_jgw_one_float_per_line (some [some 1, some 2]) [1, 2]).2.1 rfl

/-- C2 counterexample: a world file with 5 parsable lines makes `read_jgw`
return a 5-value result — not `None` and not 6 values — refuting the claim
that only 6-value results or the error sentinel are possible. -/
theorem read_jgw_five_line_counterexample :
    read_jgw (some [some 1, some 2, some 3, some 4, some 5]) = some [1, 2, 3, 4, 5] ∧
    [(1 : ℚ), 2, 3, 4, 5].length ≠ 6 := by
  constructor
  · rfl
  · decide

/-! ## C4: bucket counting in the detector adapter -/

lemma countBoxList_eq (boxes : List Detection) : ∀ acc : ℕ × ℕ,
    countBoxList acc boxes =
      (acc.1 + boxes.countP (fun d => d.cls = 0),
       acc.2 + boxes.countP (fun d => d.cls = 1)) := by
  induction boxes with
  | nil => intro acc; simp [countBoxList]
  | cons d rest ih =>
    intro acc
    by_cases h0 : d.cls = 0
    · have h1 : ¬(d.cls = 1) := by rw [h0]; decide
      simp only [countBoxList, List.foldl_cons, if_pos h0]
      rw [show (List.foldl _ (acc.1 + 1, acc.2) rest : ℕ × ℕ)
            = countBoxList (acc.1 + 1, acc.2) rest from rfl, ih]
      simp [List.countP_cons, h0, h1, Prod.ext_iff]
      omega
    · by_cases h1 : d.cls = 1
      · simp only [countBoxList, List.foldl_cons, if_neg h0, if_pos h1]
        rw [show (List.foldl _ (acc.1, acc.2 + 1) rest : ℕ × ℕ)
              = countBoxList (acc.1, acc.2 + 1) rest from rfl, ih]
        simp [List.countP_cons, h0, h1, Prod.ext_iff]
        omega
      · simp only [countBoxList, List.foldl_cons, if_neg h0, if_neg h1]
        rw [show (List.foldl _ (acc.1, acc.2) rest : ℕ × ℕ)
              = countBoxList (acc.1, acc.2) rest from rfl, ih]
        simp [List.countP_cons, h0, h1]

lemma allDetections_cons (r : YoloResult) (rest : List YoloResult) :
    allDetections (r :: rest) = r.boxes.getD [] ++ allDetections rest := rfl

lemma countBoxes_eq (results : List YoloResult) :
    countBoxes results =
      ((allDetections results).countP (fun d => d.cls = 0),
       (allDetections results).countP (fun d => d.cls = 1)) := by
  suffices h : ∀ acc : ℕ × ℕ,
      results.foldl
        (fun acc r =>
          match r.boxes with
          | none => acc
          | some boxes => countBoxList acc boxes)
        acc =
      (acc.1 + (allDetections results).countP (fun d => d.cls = 0),
       acc.2 + (allDetections results).countP (fun d => d.cls = 1)) by
    rw [countBoxes, h (0, 0)]; simp
  induction results with
  | nil => intro acc; simp [allDetections]
  | cons r rest ih =>
    intro acc
    rw [List.foldl_cons, allDetections_cons]
    match hb : r.boxes with
    | none => simp only [hb, Option.getD_none, List.nil_append]; exact ih acc
    | some boxes =>
      simp only [hb, Option.getD_some]
      rw [ih (countBoxList acc boxes), countBoxList_eq]
      simp [List.countP_append]
      constructor <;> ring

/-- C4: the detector adapter's summary counts: `abnormal_count` is the number
of returned detections with class id 0, `normal_count` the number with class
id 1, and any other class id contributes to neither; on the synthetic class
list `[0, 0, 1, 2]` the buckets are 2 and 1. -/
theorem detect_objects_bucket_counts :
    (∀ (fs : List String) (i : ImageInfo) (results : List YoloResult) (stem : String),
      (detect_objects fs (some i) (some results) stem).counts.abnormal_count
          = (allDetections results).countP (fun d => d.cls = 0) ∧
      (detect_objects fs (some i) (some results) stem).counts.normal_count
          = (allDetections results).countP (fun d => d.cls = 1)) ∧
    countBoxes
        [⟨some [⟨some (0, 0, 2, 2), 0, 1⟩, ⟨some (0, 0, 2, 2), 0, 1⟩,
                ⟨some (0, 0, 2, 2), 1, 1⟩, ⟨some (0, 0, 2, 2), 2, 1⟩]⟩]
      = (2, 1) := by
  constructor
  · intro fs i results stem
    have hok : (validate_and_preprocess_image (some i) stem).ok = true := by
      by_cases h : i.mode = ImgMode.RGB <;> simp [validate_and_preprocess_image, h]
    simp only [detect_objects, hok]
    rw [countBoxes_eq]
    simp
  · rfl

/-! ## C6: the Image Normalizer -/

/-- C6: for a readable image the normalizer succeeds, leaves `temp_path = None`
exactly when the image was already RGB, and otherwise points `temp_path` at the
derived temp name holding a freshly written RGB copy of the same dimensions;
an unreadable / zero-byte / non-image input yields the failure 5-tuple
`(False, 0, 0, None, None)` instead of an exception. -/
theorem validate_normalizer_spec :
    (∀ stem, validate_and_preprocess_image none stem = ⟨false, 0, 0, none, none, none⟩) ∧
    (∀ i stem, (validate_and_preprocess_image (some i) stem).ok = true) ∧
    (∀ i stem,
      (validate_and_preprocess_image (some i) stem).temp_path = none ↔ i.mode = ImgMode.RGB) ∧
    (∀ i stem, i.mode ≠ ImgMode.RGB →
      (validate_and_preprocess_image (some i) stem).temp_path = some (tempName stem) ∧
      (validate_and_preprocess_image (some i) stem).written
        = some ⟨ImgMode.RGB, i.width, i.height⟩) := by
  refine ⟨fun stem => rfl, fun i stem => ?_, fun i stem => ?_, fun i stem h => ?_⟩ <;>
    by_cases h' : i.mode = ImgMode.RGB <;>
    simp_all [validate_and_preprocess_image]

/-- Witness for `validate_normalizer_spec` on a concrete palette image. -/
theorem validate_normalizer_spec_witness :
    (validate_and_preprocess_image (some ⟨ImgMode.P, 4, 3⟩) "img").temp_path
        = some (tempName "img") ∧
    (validate_and_preprocess_image (some ⟨ImgMode.P, 4, 3⟩) "img").written
        = some ⟨ImgMode.RGB, 4, 3⟩ :=
  validate_normalizer_spec.2.2.2 ⟨ImgMode.P, 4, 3⟩ "img" (by decide)

/-! ## C8: temp-file cleanup in `detect_objects` -/

lemma contains_removeIfExists (fs : List String) (p : String) :
    (removeIfExists fs p).contains p = false := by
  rw [removeIfExists]
  by_cases h : fs.contains p = true
  · rw [if_pos h]
    have : p ∉ fs.filter (fun q => q ≠ p) := by
      intro hmem
      have := (List.mem_filter.mp hmem).2
      simp at this
    simp only [Bool.eq_false_iff, Ne]
    exact fun hc => absurd (List.elem_iff.mp hc) this
  · rw [if_neg h]
    simpa using h

/-- C8: the temporary normalized image is gone from the directory when
`detect_objects` returns, on every exit path — success, detection failure,
exception from `predict` — and when no temp file was created this call the
directory is returned untouched (in particular the cleanup, guarded by an
existence check, tolerates the file being absent). -/
theorem detect_objects_temp_cleanup (fs : List String) (img : Option ImageInfo)
    (predict : Option (List YoloResult)) (stem : String) :
    ((detect_objects fs img predict stem).fs).contains (tempName stem)
        = (fs.contains (tempName stem) && !(tempCreated img)) ∧
    (tempCreated img = false → (detect_objects fs img predict stem).fs = fs) := by
  match img with
  | none =>
    refine ⟨?_, fun _ => rfl⟩
    simp [detect_objects, validate_and_preprocess_image, tempCreated]
  | some i =>
    by_cases h : i.mode = ImgMode.RGB
    · have hval : validate_and_preprocess_image (some i) stem
          = ⟨true, i.width, i.height, some ImgMode.RGB, none, none⟩ := by
        simp [validate_and_preprocess_image, h]
      have hfs : (detect_objects fs (some i) predict stem).fs = fs := by
        cases predict <;> simp [detect_objects, hval]
      refine ⟨?_, fun _ => hfs⟩
      rw [hfs]
      simp [tempCreated, h]
    · have hval : validate_and_preprocess_image (some i) stem
          = ⟨true, i.width, i.height, some ImgMode.RGB, some (tempName stem),
              some ⟨ImgMode.RGB, i.width, i.height⟩⟩ := by
        simp [validate_and_preprocess_image, h]
      have hcreated : tempCreated (some i) = true := by simp [tempCreated, h]
      have hfs : (detect_objects fs (some i) predict stem).fs
          = removeIfExists (writeName fs (tempName stem)) (tempName stem) := by
        cases predict <;> simp [detect_objects, hval]
      refine ⟨?_, fun hno => by rw [hcreated] at hno; exact absurd hno (by simp)⟩
      rw [hfs, hcreated, contains_removeIfExists]
      simp

/-- Witness for `detect_objects_temp_cleanup`: an already-RGB image leaves a
concrete directory untouched. -/
theorem detect_objects_temp_cleanup_witness :
    (detect_objects ["a.png"] (some ⟨ImgMode.RGB, 2, 2⟩) none "a").fs = ["a.png"] :=
  (detect_objects_temp_cleanup ["a.png"] (some ⟨ImgMode.RGB, 2, 2⟩) none "a").2 (by decide)


lemma digitsVal_foldl (l : List Char) : ∀ a : ℕ,
    l.foldl (fun a c => 10 * a + digitVal c) a = a * 10 ^ l.length + digitsVal l := by
  induction l with
  | nil => intro a; simp [digitsVal]
  | cons c tl ih =>
    intro a
    have hv : digitsVal (c :: tl) = digitVal c * 10 ^ tl.length + digitsVal tl := by
      rw [digitsVal, List.foldl_cons, ih (10 * 0 + digitVal c)]
      ring_nf
    rw [List.foldl_cons, ih (10 * a + digitVal c), hv, List.length_cons]
    ring

lemma digitChar_toNat (m : ℕ) (h : m < 10) : (Nat.digitChar m).toNat = 48 + m := by
  have hall : ∀ k, k < 10 → (Nat.digitChar k).toNat = 48 + k := by decide
  exact hall m h

lemma toDigitsCore_val : ∀ (fuel n : ℕ) (acc : List Char), n < fuel →
    digitsVal (Nat.toDigitsCore 10 fuel n acc) = n * 10 ^ acc.length + digitsVal acc := by
  intro fuel
  induction fuel with
  | zero => intro n acc h; exact absurd h (Nat.not_lt_zero n)
  | succ f ih =>
    intro n acc h
    have hmod : n % 10 < 10 := Nat.mod_lt n (by norm_num)
    have hdig : digitsVal (Nat.digitChar (n % 10) :: acc)
        = n % 10 * 10 ^ acc.length + digitsVal acc := by
      rw [digitsVal, List.foldl_cons, digitsVal_foldl]
      simp only [digitVal]
      rw [digitChar_toNat (n % 10) hmod]
      have hsub : 48 + n % 10 - 48 = n % 10 := by omega
      rw [hsub]
      ring_nf
    by_cases h0 : n / 10 = 0
    · have hn10 : n < 10 := by omega
      rw [Nat.toDigitsCore, if_pos h0, hdig, Nat.mod_eq_of_lt hn10]
    · have hpos : 0 < n := by
        rcases Nat.eq_zero_or_pos n with h' | h'
        · exact absurd (by rw [h']) h0
        · exact h'
      have hlt : n / 10 < f := by
        have := Nat.div_lt_self hpos (by norm_num : 1 < 10)
        omega
      rw [Nat.toDigitsCore, if_neg h0, ih (n / 10) (Nat.digitChar (n % 10) :: acc) hlt, hdig]
      have hdm : 10 * (n / 10) + n % 10 = n := Nat.div_add_mod n 10
      calc n / 10 * 10 ^ (Nat.digitChar (n % 10) :: acc).length
            + (n % 10 * 10 ^ acc.length + digitsVal acc)
          = (10 * (n / 10) + n % 10) * 10 ^ acc.length + digitsVal acc := by
            rw [List.length_cons]; ring
        _ = n * 10 ^ acc.length + digitsVal acc := by rw [hdm]


lemma strVal_repr (n : ℕ) : strVal (Nat.repr n) = n := by
  have h := toDigitsCore_val (n + 1) n [] (Nat.lt_succ_self n)
  simp only [List.length_nil, pow_zero, mul_one] at h
  rw [strVal, Nat.repr, Nat.toDigits]
  simpa [List.asString, digitsVal] using h

lemma repr_injective : Function.Injective Nat.repr := by
  intro a b h
  have h' := congrArg strVal h
  rwa [strVal_repr, strVal_repr] at h'

lemma repr_data_length_pos (n : ℕ) (h : n ≠ 0) : 0 < (Nat.repr n).data.length := by
  by_contra hlen
  have hnil : (Nat.repr n).data = [] := List.eq_nil_of_length_eq_zero (by omega)
  have := strVal_repr n
  rw [strVal, hnil] at this
  simp [digitsVal] at this
  omega


lemma geojson_name_data (base : String) :
    (geojson_name base 0).data = base.data ++ ".geojson".data ∧
    ∀ k, (geojson_name base (k + 1)).data
        = base.data ++ "_".data ++ (Nat.repr (k + 1)).data ++ ".geojson".data := by
  constructor
  · simp [geojson_name, String.data_append]
  · intro k; simp [geojson_name, String.data_append]

lemma geojson_name_inj (base : String) : Function.Injective (geojson_name base) := by
  intro a b h
  match a, b with
  | 0, 0 => rfl
  | 0, k + 1 =>
    exfalso
    have hd := congrArg (fun s => s.data.length) h
    simp only [(geojson_name_data base).1, (geojson_name_data base).2 k,
      List.length_append] at hd
    have := repr_data_length_pos (k + 1) (Nat.succ_ne_zero k)
    simp at hd
    omega
  | j + 1, 0 =>
    exfalso
    have hd := congrArg (fun s => s.data.length) h
    simp only [(geojson_name_data base).1, (geojson_name_data base).2 j,
      List.length_append] at hd
    have := repr_data_length_pos (j + 1) (Nat.succ_ne_zero j)
    simp at hd
    omega
  | j + 1, k + 1 =>
    have hd := congrArg String.data h
    simp only [(geojson_name_data base).2 j, (geojson_name_data base).2 k] at hd
    rw [List.append_assoc (base.data ++ "_".data), List.append_assoc (base.data ++ "_".data)]
      at hd
    have h1 := List.append_cancel_left hd
    have h2 := List.append_cancel_right h1
    have h3 : Nat.repr (j + 1) = Nat.repr (k + 1) := String.ext h2
    have := repr_injective h3
    omega



lemma find_free_name_none (existing : List String) (base : String) :
    ∀ (fuel n : ℕ), find_free_name existing base fuel n = none →
      ∀ k, k < fuel → geojson_name base (n + k) ∈ existing := by
  intro fuel
  induction fuel with
  | zero => intro n _ k hk; exact absurd hk (Nat.not_lt_zero k)
  | succ f ih =>
    intro n h k hk
    rw [find_free_name] at h
    by_cases hc : existing.contains (geojson_name base n) = true
    · rw [if_pos hc] at h
      match k with
      | 0 => simpa using List.elem_iff.mp hc
      | k' + 1 =>
        have := ih (n + 1) h k' (by omega)
        rwa [show n + 1 + k' = n + (k' + 1) by omega] at this
    · rw [if_neg hc] at h
      exact absurd h (by simp)

lemma find_free_name_total (existing : List String) (base : String) (n : ℕ) :
    find_free_name existing base (existing.length + 1) n ≠ none := by
  intro h
  have hall := find_free_name_none existing base (existing.length + 1) n h
  set L := (List.range (existing.length + 1)).map (fun k => geojson_name base (n + k)) with hL
  have hinj : Function.Injective (fun k => geojson_name base (n + k)) := by
    intro x y hxy
    have := geojson_name_inj base hxy
    omega
  have hnodup : L.Nodup := (List.nodup_range _).map hinj
  have hsub : L.toFinset ⊆ existing.toFinset := by
    intro x hx
    rw [List.mem_toFinset] at hx
    rw [hL, List.mem_map] at hx
    obtain ⟨k, hk, rfl⟩ := hx
    rw [List.mem_range] at hk
    exact List.mem_toFinset.mpr (hall k hk)
  have h1 : L.toFinset.card = L.length := List.toFinset_card_of_nodup hnodup
  have h2 := Finset.card_le_card hsub
  have h3 := List.toFinset_card_le existing
  have h4 : L.length = existing.length + 1 := by simp [hL]
  omega

lemma find_free_name_some (existing : List String) (base : String) :
    ∀ (fuel n : ℕ) (name : String), find_free_name existing base fuel n = some name →
      ∃ j, name = geojson_name base (n + j) ∧ name ∉ existing ∧
        ∀ i, i < j → geojson_name base (n + i) ∈ existing := by
  intro fuel
  induction fuel with
  | zero => intro n name h; exact absurd h (by simp [find_free_name])
  | succ f ih =>
    intro n name h
    rw [find_free_name] at h
    by_cases hc : existing.contains (geojson_name base n) = true
    · rw [if_pos hc] at h
      obtain ⟨j, hj1, hj2, hj3⟩ := ih (n + 1) name h
      refine ⟨j + 1, by rwa [show n + (j + 1) = n + 1 + j by omega], hj2, ?_⟩
      intro i hi
      match i with
      | 0 => simpa using List.elem_iff.mp hc
      | i' + 1 =>
        have := hj3 i' (by omega)
        rwa [show n + 1 + i' = n + (i' + 1) by omega] at this
    · rw [if_neg hc] at h
      simp only [Option.some.injEq] at h
      refine ⟨0, h.symm, ?_, fun i hi => absurd hi (Nat.not_lt_zero i)⟩
      intro hmem
      exact hc (List.elem_iff.mpr (h ▸ hmem))

/-- C5: `save_geojson` never reuses an existing name: it returns
`<base>.geojson` when free and otherwise the name with the smallest
incrementing suffix `_1, _2, …` not yet present; in particular with
`<base>.geojson` already present it returns the `_1` name, and with both of
those present the `_2` name. -/
theorem save_geojson_collision_free (existing : List String) (base : String) :
    (∃ n, save_geojson existing base true = some (geojson_name base n) ∧
        geojson_name base n ∉ existing ∧
        ∀ m, m < n → geojson_name base m ∈ existing) ∧
    save_geojson [] base true = some (geojson_name base 0) ∧
    save_geojson [geojson_name base 0] base true = some (geojson_name base 1) ∧
    save_geojson [geojson_name base 0, geojson_name base 1] base true
        = some (geojson_name base 2) := by
  have hne : ∀ j k : ℕ, j ≠ k → geojson_name base j ≠ geojson_name base k := by
    intro j k hjk h
    exact hjk (geojson_name_inj base h)
  refine ⟨?_, ?_, ?_, ?_⟩
  · match hf : find_free_name existing base (existing.length + 1) 0 with
    | none => exact absurd hf (find_free_name_total existing base 0)
    | some name =>
      obtain ⟨j, hj1, hj2, hj3⟩ := find_free_name_some existing base _ 0 name hf
      simp only [Nat.zero_add] at hj1 hj3
      refine ⟨j, ?_, by rwa [← hj1], fun m hm => hj3 m hm⟩
      rw [save_geojson, hf]
      simp [hj1]
  · simp [save_geojson, find_free_name]
  · have h10 := hne 1 0 (by omega)
    simp [save_geojson, find_free_name, h10]
  · have h10 := hne 1 0 (by omega)
    have h20 := hne 2 0 (by omega)
    have h21 := hne 2 1 (by omega)
    simp [save_geojson, find_free_name, h10, h20, h21]

/-- Witness for `save_geojson_collision_free`: a second save for the stem
`"tile"` lands on the `_1` name, a third on `_2`. -/
theorem save_geojson_collision_free_witness :
    save_geojson [geojson_name "tile" 0] "tile" true = some (geojson_name "tile" 1) ∧
    save_geojson [geojson_name "tile" 0, geojson_name "tile" 1] "tile" true
        = some (geojson_name "tile" 2) :=
  ⟨(save_geojson_collision_free [geojson_name "tile" 0] "tile").2.2.1,
   (save_geojson_collision_free [geojson_name "tile" 0, geojson_name "tile" 1] "tile").2.2.2⟩


lemma terminalOf_success_counts (labels : List (ℤ × String)) (e : FileEnv) (a b : ℕ) :
    terminalOf labels e = .success a b → a = fileAbnormal e ∧ b = fileNormal e := by
  intro h
  rw [terminalOf] at h
  by_cases hb : e.bodyExn = true
  · simp [hb] at h
  · simp only [hb, Bool.false_eq_true, if_false] at h
    rcases hd : (detect_objects e.existing e.img e.predict e.stem).results with _ | r
    · simp [hd] at h
    · rcases hj : read_jgw e.jgw with _ | params
      · simp [hd, hj] at h
      · rcases hc : create_geojson (some r) (some params) labels with u | fc
        · simp [hd, hj, hc] at h
        · rcases hs : save_geojson e.existing e.stem e.writeOk with _ | path
          · simp [hd, hj, hc, hs] at h
          · simp only [hd, hj, hc, hs] at h
            cases h
            exact ⟨rfl, rfl⟩

lemma runFiles_cons (labels : List (ℤ × String)) (total k : ℕ) (st : BatchState)
    (e : FileEnv) (rest : List FileEnv) :
    runFiles labels total k st (e :: rest)
      = runFiles labels total (k + 1) (processFile labels total st k e) rest := rfl

lemma runFiles_char (labels : List (ℤ × String)) (total : ℕ) :
    ∀ (files : List FileEnv) (k : ℕ) (st : BatchState),
      (runFiles labels total k st files).successful
          = st.successful + files.countP (fileSucceeds labels) ∧
      (runFiles labels total k st files).failed
          = st.failed + files.countP (fun e => !fileSucceeds labels e) ∧
      (runFiles labels total k st files).total_abnormal
          = st.total_abnormal + ((files.filter (fileSucceeds labels)).map fileAbnormal).sum ∧
      (runFiles labels total k st files).total_normal
          = st.total_normal + ((files.filter (fileSucceeds labels)).map fileNormal).sum ∧
      (runFiles labels total k st files).records.map (fun r => r.current_file)
          = st.records.map (fun r => r.current_file)
            ++ (files.filter (emitsRecord labels)).map (fun e => e.name) := by
  intro files
  induction files with
  | nil =>
    intro k st
    refine ⟨?_, ?_, ?_, ?_, ?_⟩ <;> simp [runFiles, List.enumFrom]
  | cons e rest ih =>
    intro k st
    obtain ⟨ih1, ih2, ih3, ih4, ih5⟩ := ih (k + 1) (processFile labels total st k e)
    rw [runFiles_cons]
    cases ht : terminalOf labels e with
    | silentFail =>
      have hs : fileSucceeds labels e = false := by simp [fileSucceeds, ht]
      have he : emitsRecord labels e = false := by simp [emitsRecord, ht]
      have hp : processFile labels total st k e
          = ⟨st.successful, st.failed + 1, st.total_abnormal, st.total_normal, st.records⟩ := by
        simp [processFile, ht, applyTerminal]
      refine ⟨?_, ?_, ?_, ?_, ?_⟩
      · rw [ih1, hp]; simp [List.countP_cons, hs]
      · rw [ih2, hp]; simp [List.countP_cons, hs]; omega
      · rw [ih3, hp]; simp [List.filter_cons, hs]
      · rw [ih4, hp]; simp [List.filter_cons, hs]
      · rw [ih5, hp]; simp [List.filter_cons, he]
    | exnCaught =>
      have hs : fileSucceeds labels e = false := by simp [fileSucceeds, ht]
      have he : emitsRecord labels e = true := by simp [emitsRecord, ht]
      have hp : processFile labels total st k e
          = ⟨st.successful, st.failed + 1, st.total_abnormal, st.total_normal,
              st.records ++ [⟨k + 1, total, st.successful, st.failed + 1, e.name,
                "Error", 0, 0⟩]⟩ := by
        simp [processFile, ht, applyTerminal]
      refine ⟨?_, ?_, ?_, ?_, ?_⟩
      · rw [ih1, hp]; simp [List.countP_cons, hs]
      · rw [ih2, hp]; simp [List.countP_cons, hs]; omega
      · rw [ih3, hp]; simp [List.filter_cons, hs]
      · rw [ih4, hp]; simp [List.filter_cons, hs]
      · rw [ih5, hp]; simp [List.filter_cons, he]
    | success a b =>
      obtain ⟨ha, hb⟩ := terminalOf_success_counts labels e a b ht
      have hs : fileSucceeds labels e = true := by simp [fileSucceeds, ht]
      have he : emitsRecord labels e = true := by simp [emitsRecord, ht]
      have hp : processFile labels total st k e
          = ⟨st.successful + 1, st.failed, st.total_abnormal + a, st.total_normal + b,
              st.records ++ [⟨k + 1, total, st.successful + 1, st.failed, e.name,
                "Processed successfully", a, b⟩]⟩ := by
        simp [processFile, ht, applyTerminal]
      refine ⟨?_, ?_, ?_, ?_, ?_⟩
      · rw [ih1, hp]; simp [List.countP_cons, hs]; omega
      · rw [ih2, hp]; simp [List.countP_cons, hs]
      · rw [ih3, hp]; simp [List.filter_cons, hs, ← ha]; omega
      · rw [ih4, hp]; simp [List.filter_cons, hs, ← hb]; omega
      · rw [ih5, hp]; simp [List.filter_cons, he]

lemma countP_not_add {α : Type} (p : α → Bool) (l : List α) :
    l.countP p + l.countP (fun a => !p a) = l.length := by
  induction l with
  | nil => simp
  | cons a l ih => by_cases h : p a <;> simp [List.countP_cons, h] <;> omega

/-- C3 (amended): the orchestrator emits exactly one progress record for
each file that ends in success or in a caught exception, in file order;
files that fail via a sentinel return (invalid image / detection failure,
missing world file, GeoJSON write failure) are counted as failed but emit
no progress record. -/
theorem process_folder_progress_records (labels : List (ℤ × String)) (files : List FileEnv) :
    ((process_folder true labels files).2).map (fun r => r.current_file)
        = (files.filter (emitsRecord labels)).map (fun e => e.name) := by
  have h := (runFiles_char labels files.length files 0 ⟨0, 0, 0, 0, []⟩).2.2.2.2
  simpa [process_folder] using h


/-- C3 counterexample: a one-file batch whose file fails (invalid image)
reaches its terminal state — `failed_processed = 1` — but emits zero
progress records, refuting "exactly one progress record per file whether it
succeeded or failed for any reason". -/
theorem process_folder_progress_counterexample :
    (process_folder true [] [invalidImageEnv]).1.failed_processed = 1 ∧
    (process_folder true [] [invalidImageEnv]).2 = [] := by
  constructor <;> rfl

/-- C7: the batch never propagates a per-file error — for every environment
(including per-file exceptions) each file ends counted in `successful` or
`failed` and the loop runs to the end (`successful + failed = total`), with
the single exception of a model-load failure at batch start, which returns
immediately with an `error` field and zero files processed. -/
theorem process_folder_error_isolation (labels : List (ℤ × String)) (files : List FileEnv) :
    ((process_folder false labels files).1.error.isSome = true ∧
      (process_folder false labels files).1.successful_processed = 0 ∧
      (process_folder false labels files).1.failed_processed = 0 ∧
      (process_folder false labels files).1.total_files = 0 ∧
      (process_folder false labels files).2 = []) ∧
    ((process_folder true labels files).1.error = none ∧
      (process_folder true labels files).1.successful_processed
          + (process_folder true labels files).1.failed_processed = files.length) := by
  refine ⟨⟨rfl, rfl, rfl, rfl, rfl⟩, rfl, ?_⟩
  obtain ⟨h1, h2, _, _, _⟩ := runFiles_char labels files.length files 0 ⟨0, 0, 0, 0, []⟩
  simp only [process_folder, Bool.true_eq_false, if_false]
  rw [h1, h2]
  simpa using countP_not_add (fileSucceeds labels) files

/-- C10: the batch totals accumulate detector bucket counts only from files
that completed the whole pipeline successfully; a file that detected objects
but then failed (missing world file, write failure, exception) contributes
nothing to either total. -/
theorem process_folder_totals_from_successes (labels : List (ℤ × String))
    (files : List FileEnv) :
    (process_folder true labels files).1.total_abnormal
        = ((files.filter (fileSucceeds labels)).map fileAbnormal).sum ∧
    (process_folder true labels files).1.total_normal
        = ((files.filter (fileSucceeds labels)).map fileNormal).sum := by
  obtain ⟨_, _, h3, h4, _⟩ := runFiles_char labels files.length files 0 ⟨0, 0, 0, 0, []⟩
  constructor
  · simpa [process_folder] using h3
  · simpa [process_folder] using h4
